import Mathlib

/-!
Verification of the `ge_world` reinforcement-learning environments
(`amy_point_mass.py` and `peg_2d.py`) against their natural-language
specification.  The simulator (MuJoCo) is an external collaborator: the
pre-simulation and post-simulation readings that the code obtains from it
are inputs of the embedded step functions.  Random draws are likewise
inputs (lists of candidates), so the rejection-sampling loops become
functions over candidate streams.
-/

/-! ## Point-mass environment: `Controls` (amy_point_mass.py) -/

/-- State of the `Controls` task holder: the number of tasks `k` and the
current task index.  Python integers are unbounded and may be negative, so
the index is an integer. -/
structure Controls where
  k : ℕ
  index : ℤ
  deriving DecidableEq

/-- Embeds `Controls.sample_task` for an explicitly passed index (the
`index=None` branch draws `np.random.randint(0, k)` and is not needed by
any claim).  The code sets `self.index = index` and then runs
`assert index < self.k, ...`; there is no lower-bound check, so only
`index < k` is validated. -/
def sample_task (c : Controls) (i : ℤ) : Except String Controls :=
  if i < (c.k : ℤ) then Except.ok { c with index := i }
  else Except.error "index need to be less than the number of tasks"

/-- Embeds `PointMassEnv.get_goal_index`, which returns `self.controls.index`. -/
def get_goal_index (c : Controls) : ℤ := c.index

/-- Turns an `Except` into an `Option`, dropping the error message. -/
def except_value {ε α : Type} (e : Except ε α) : Option α :=
  match e with
  | Except.ok a => some a
  | Except.error _ => none

/-! ## Discrete action tables -/

/-- The point-mass discrete action levels `[-.5, 0, .5]`. -/
def pm_actions : List ℚ := [-1/2, 0, 1/2]

/-- Embeds the point-mass table
`[(a, b) for a in actions for b in actions if not (a==0 and b==0)]`. -/
def pm_a_dict : List (ℚ × ℚ) :=
  pm_actions.flatMap fun a => pm_actions.filterMap fun b =>
    if a = 0 ∧ b = 0 then none else some (a, b)

/-- The peg discrete action levels `[-act_scale, 0, act_scale]`. -/
def pegActions (s : ℚ) : List ℚ := [-s, 0, s]

/-- Embeds the peg table built in `Peg2DEnv.__init__`: the triple nested
comprehension over `[-act_scale, 0, act_scale]`, with the all-zero triple
filtered out when `id_less` is set. -/
def peg_a_dict (s : ℚ) (id_less : Bool) : List (ℚ × ℚ × ℚ) :=
  if id_less then
    pegActions s |>.flatMap fun a => pegActions s |>.flatMap fun b =>
      pegActions s |>.filterMap fun c =>
        if a = 0 ∧ b = 0 ∧ c = 0 then none else some (a, b, c)
  else
    pegActions s |>.flatMap fun a => pegActions s |>.flatMap fun b =>
      pegActions s |>.map fun c => (a, b, c)

/-- CPython list subscript semantics for `l[i]` with an `int` index: a
negative index is offset by the length once; any index still outside
`[0, len)` raises `IndexError`. -/
def list_index {α : Type} (l : List α) (i : ℤ) : Except String α :=
  if h : 0 ≤ i ∧ i < (l.length : ℤ) then
    Except.ok (l.get ⟨i.toNat, by omega⟩)
  else if h2 : i < 0 ∧ 0 ≤ (l.length : ℤ) + i then
    Except.ok (l.get ⟨((l.length : ℤ) + i).toNat, by omega⟩)
  else Except.error "list index out of range"

/-! ## Point-mass step -/

/-- Euclidean norm of a 2-vector, `np.linalg.norm` on two components. -/
noncomputable def norm2 (v : ℝ × ℝ) : ℝ := Real.sqrt (v.1 ^ 2 + v.2 ^ 2)

/-- Embeds `PointMassEnv.get_reward`:
`0. if np.linalg.norm(state - goal) < 0.02 else -1.`. -/
noncomputable def get_reward (state goal : ℝ × ℝ) : ℝ :=
  if norm2 (state.1 - goal.1, state.2 - goal.2) < 0.02 then 0 else -1

/-- Return value of `PointMassEnv.step`: observation, reward, done flag and
the `dist` / `success` entries of the info dict. -/
structure PMStep where
  ob : ℝ × ℝ
  reward : ℝ
  done : Bool
  dist : ℝ
  success : ℝ

/-- Embeds `PointMassEnv.step`.  `delta` is the body-com difference
`self._get_delta()` read BEFORE `do_simulation`; `ob` is `self._get_obs()`
(first two `qpos` components) read AFTER the simulation; `goal` is
`self.controls.goals` (a 2-vector after a reset).  `dist` and `success`
come from the pre-simulation `delta`, while `reward` (and hence `done`)
come from the post-simulation `ob`. -/
noncomputable def pm_step (delta ob goal : ℝ × ℝ) : PMStep :=
  { ob := ob
    reward := get_reward ob goal
    done := if get_reward ob goal = 0 then true else false
    dist := norm2 delta
    success := if norm2 delta < 0.02 then 1 else 0 }

/-! ## Peg-insertion environment (peg_2d.py) -/

/-- Embeds `good_goal`: `goal[0] < 0.26 and -0.26 < goal[0]` (the candidate
is a 1-dimensional array, modelled by its single scalar). -/
def good_goal (goal : ℝ) : Prop := goal < 0.26 ∧ -0.26 < goal

/-- Embeds `good_state`: `state[0] < (np.pi / 2) and (- np.pi / 2) < state[0]`. -/
def good_state (state : ℝ × ℝ × ℝ) : Prop :=
  state.1 < Real.pi / 2 ∧ -(Real.pi / 2) < state.1

noncomputable instance (g : ℝ) : Decidable (good_goal g) := by
  unfold good_goal
  infer_instance

noncomputable instance (st : ℝ × ℝ × ℝ) : Decidable (good_state st) := by
  unfold good_state
  infer_instance

/-- First element of a candidate list satisfying `good_goal` (the body of
the `for goal in goals: if good_goal(goal): return goal` scan). -/
noncomputable def find_good_goal : List ℝ → Option ℝ
  | [] => none
  | g :: rest => if good_goal g then some g else find_good_goal rest

/-- Embeds `Peg2DEnv._get_goal`: the loop repeatedly draws a batch of 4
scalar candidates from `Uniform(goal_low, goal_high)` and returns the first
candidate (in batch order) satisfying `good_goal`; `batches` is the stream
of drawn batches, and `none` models the loop never finding a good
candidate in the supplied stream. -/
noncomputable def get_goal (batches : List (List ℝ)) : Option ℝ :=
  find_good_goal batches.flatten

/-- Embeds `np.sign` on a scalar: `-1`, `0` or `1` by the sign of `x`. -/
noncomputable def np_sign (x : ℝ) : ℝ := if x < 0 then -1 else if 0 < x then 1 else 0

/-- Embeds the candidate construction in `Peg2DEnv._get_state` from the raw
draws of one row: `s0 ~ Uniform(-1.5, 1.5)` stays the first joint, the
second joint is `- s0 - np.sign(s0) * spread` with `spread ~ Uniform(0, π/2)`,
and the third is `np.sign(s0) * spread + extra` with `extra ~ Uniform(0, π/4)`. -/
noncomputable def peg_candidate (s0 spread extra : ℝ) : ℝ × ℝ × ℝ :=
  (s0, -s0 - np_sign s0 * spread, np_sign s0 * spread + extra)

/-- First candidate state satisfying `good_state` (the body of the
`for state in states: if good_state(state): return state` scan). -/
noncomputable def find_good_state : List (ℝ × ℝ × ℝ) → Option (ℝ × ℝ × ℝ)
  | [] => none
  | st :: rest => if good_state st then some st else find_good_state rest

/-- Embeds `Peg2DEnv._get_state`: each batch holds the raw draw triples
`(s0, spread, extra)` of 4 candidate rows; the candidates are built by
`peg_candidate` and the first one satisfying `good_state` is returned. -/
noncomputable def get_state (batches : List (List (ℝ × ℝ × ℝ))) : Option (ℝ × ℝ × ℝ) :=
  find_good_state (batches.flatten.map fun d => peg_candidate d.1 d.2.1 d.2.2)

/-- Embeds `np.linalg.norm` of a vector given as a list of reals. -/
noncomputable def np_norm (v : List ℝ) : ℝ := Real.sqrt ((v.map fun x => x ^ 2).sum)

/-- Reward of `Peg2DEnv.step` in the continuous configuration:
`reward = - np.linalg.norm(a)` on the raw action vector. -/
noncomputable def peg_reward_cont (a : List ℝ) : ℝ := -(np_norm a)

/-- Reward of `Peg2DEnv.step` in the discrete configuration: the code first
builds `a = np.array([*self.a_dict[int(a)], self.goal])`, appending the
current goal scalar to the looked-up tuple, and then computes
`reward = - np.linalg.norm(a)` over that 4-component vector. -/
noncomputable def peg_reward_discrete (tbl : List (ℚ × ℚ × ℚ)) (i : ℤ) (goal : ℝ) :
    Except String ℝ :=
  (list_index tbl i).map fun t => -(np_norm [(t.1 : ℝ), (t.2.1 : ℝ), (t.2.2 : ℝ), goal])

/-- One reach-counter / done update of `Peg2DEnv.step`, run after the
reward is computed: `if self.reach_counts: self.reach_counts =
self.reach_counts + 1 if reward == 0 else 0; elif reward == 0:
self.reach_counts = 1`, then `if self.done_on_goal and self.reach_counts > 1:
done = True; self.reach_counts = 0; else: done = False`. -/
noncomputable def reach_update (done_on_goal : Bool) (reach_counts : ℕ) (reward : ℝ) :
    ℕ × Bool :=
  let c :=
    if reach_counts ≠ 0 then (if reward = 0 then reach_counts + 1 else 0)
    else if reward = 0 then 1 else reach_counts
  if done_on_goal = true ∧ 1 < c then (0, true) else (c, false)

/-- Reach-counter state after a sequence of step rewards since the last
reset (`reset_model` sets `self.reach_counts = 0`), with the done flag of
the most recent step. -/
noncomputable def reach_run (done_on_goal : Bool) (rewards : List ℝ) : ℕ × Bool :=
  rewards.foldl (fun st r => reach_update done_on_goal st.1 r) (0, false)

/-- Number of consecutive zero entries at the end of a reward sequence. -/
noncomputable def trailing_zero_count (rewards : List ℝ) : ℕ :=
  (rewards.reverse.takeWhile fun r => decide (r = 0)).length

/-! ## Helper lemmas -/

/-- In-range non-negative index: `l[i]` returns the `i`-th entry. -/
theorem list_index_in_range {α : Type} (l : List α) (i : ℤ) (h0 : 0 ≤ i)
    (h1 : i < (l.length : ℤ)) :
    ∃ x, l.get? i.toNat = some x ∧ list_index l i = Except.ok x := by
  refine ⟨l.get ⟨i.toNat, by omega⟩, List.get?_eq_get _, ?_⟩
  unfold list_index
  rw [dif_pos ⟨h0, h1⟩]

/-- Negative index with `-len ≤ i`: `l[i]` silently wraps to entry `len + i`. -/
theorem list_index_wrap {α : Type} (l : List α) (i : ℤ) (h0 : -(l.length : ℤ) ≤ i)
    (h1 : i < 0) :
    ∃ x, l.get? ((l.length : ℤ) + i).toNat = some x ∧ list_index l i = Except.ok x := by
  refine ⟨l.get ⟨((l.length : ℤ) + i).toNat, by omega⟩, List.get?_eq_get _, ?_⟩
  unfold list_index
  rw [dif_neg (by omega), dif_pos ⟨h1, by omega⟩]

/-- Index outside `[-len, len)`: `l[i]` raises `IndexError`. -/
theorem list_index_oob {α : Type} (l : List α) (i : ℤ)
    (h : (l.length : ℤ) ≤ i ∨ i < -(l.length : ℤ)) :
    list_index l i = Except.error "list index out of range" := by
  unfold list_index
  rcases h with h | h
  · rw [dif_neg (by omega), dif_neg (by omega)]
  · rw [dif_neg (by omega), dif_neg (by omega)]

/-- Length of the `id_less` peg table, for a nonzero action scale. -/
theorem peg_a_dict_true_length (s : ℚ) (hs : s ≠ 0) : (peg_a_dict s true).length = 26 := by
  simp [peg_a_dict, pegActions, List.filterMap_cons, hs]

/-! ## Claim theorems -/

/-- C1: for every point-mass step, given the post-simulation observation
`ob` and the current goal, the reward is `0` iff the Euclidean distance is
strictly below `0.02`, it is `-1` otherwise, and `done` holds exactly when
the reward is `0`. -/
theorem pm_reward_done_spec (delta ob goal : ℝ × ℝ) :
    ((pm_step delta ob goal).reward = 0 ↔ norm2 (ob.1 - goal.1, ob.2 - goal.2) < 0.02) ∧
    ((pm_step delta ob goal).reward = -1 ↔ ¬ norm2 (ob.1 - goal.1, ob.2 - goal.2) < 0.02) ∧
    ((pm_step delta ob goal).done = true ↔ (pm_step delta ob goal).reward = 0) := by
  by_cases h : norm2 (ob.1 - goal.1, ob.2 - goal.2) < 0.02 <;>
    norm_num [pm_step, get_reward, h]

/-- C2 counterexample: `sample_task` with the negative index `-1` on a
one-task `Controls` raises no error (the code only asserts `index < k`)
although `-1` lies outside `[0, 1)`; the stored index becomes `-1`. -/
theorem sample_task_neg_no_error :
    except_value (sample_task { k := 1, index := 0 } (-1)) =
      some { k := 1, index := -1 } ∧ ((-1 : ℤ) < 0) := by
  exact ⟨rfl, by norm_num⟩

/-- C2 (amended): `sample_task(index=i)` validates only the upper bound: it
errors exactly when `i ≥ k`, and for every `i < k` (negative included) it
succeeds and a subsequent `get_goal_index` returns exactly `i`. -/
theorem sample_task_spec (c : Controls) (i : ℤ) :
    (i < (c.k : ℤ) → ∃ c', sample_task c i = Except.ok c' ∧ get_goal_index c' = i) ∧
    ((c.k : ℤ) ≤ i →
      sample_task c i = Except.error "index need to be less than the number of tasks") := by
  constructor
  · intro h
    refine ⟨{ c with index := i }, ?_, rfl⟩
    unfold sample_task
    rw [if_pos h]
  · intro h
    unfold sample_task
    rw [if_neg (not_lt.mpr h)]

/-- Witness for C2's amended theorem at `k = 1`, `i = 0`. -/
theorem sample_task_spec_witness :
    ((0 : ℤ) < ((1 : ℕ) : ℤ)) ∧
      ∃ c', sample_task { k := 1, index := 0 } 0 = Except.ok c' ∧ get_goal_index c' = 0 :=
  ⟨by norm_num, (sample_task_spec { k := 1, index := 0 } 0).1 (by norm_num)⟩

/-- C3 counterexample: looking up the out-of-bounds index `-1` in the
point-mass discrete action table silently wraps to the last entry
`(0.5, 0.5)` instead of failing. -/
theorem discrete_lookup_neg_wraps :
    except_value (list_index pm_a_dict (-1)) = some (1/2, 1/2) ∧ ((-1 : ℤ) < 0) :=
  ⟨by with_unfolding_all rfl, by norm_num⟩

/-- C3 (amended): the discrete lookup `self.a_dict[int(a)]` follows CPython
list-subscript semantics: an index in `[0, len)` returns the table entry
unchanged, an index outside `[-len, len)` raises `IndexError`, but an index
in `[-len, 0)` silently wraps to entry `len + i` rather than failing. -/
theorem discrete_lookup_semantics {α : Type} (l : List α) (i : ℤ) :
    (0 ≤ i → i < (l.length : ℤ) →
      ∃ x, l.get? i.toNat = some x ∧ list_index l i = Except.ok x) ∧
    (((l.length : ℤ) ≤ i ∨ i < -(l.length : ℤ)) →
      list_index l i = Except.error "list index out of range") ∧
    (-(l.length : ℤ) ≤ i → i < 0 →
      ∃ x, l.get? ((l.length : ℤ) + i).toNat = some x ∧ list_index l i = Except.ok x) :=
  ⟨list_index_in_range l i, list_index_oob l i, list_index_wrap l i⟩

/-- Witness for C3's amended theorem: the wrap case at index `-1` of the
point-mass table. -/
theorem discrete_lookup_semantics_witness :
    (-(pm_a_dict.length : ℤ) ≤ -1) ∧ ((-1 : ℤ) < 0) ∧
      ∃ x, pm_a_dict.get? ((pm_a_dict.length : ℤ) + -1).toNat = some x ∧
        list_index pm_a_dict (-1) = Except.ok x := by
  have hlen : pm_a_dict.length = 8 := by with_unfolding_all rfl
  refine ⟨by rw [hlen]; norm_num, by norm_num, ?_⟩
  exact (discrete_lookup_semantics pm_a_dict (-1)).2.2 (by rw [hlen]; norm_num) (by norm_num)

/-- C4: the discrete action tables, built once at construction as nested
Cartesian products with the outermost dimension varying slowest: the
point-mass table has exactly 8 entries and no all-zero tuple (shown with
its full deterministic enumeration); the peg table with `id_less = true` has
26 entries and no all-zero tuple; with `id_less = false` it has 27 entries
of which exactly one is all-zero (again with its full enumeration). -/
theorem action_tables_spec (s : ℚ) (hs : s ≠ 0) :
    pm_a_dict.length = 8 ∧ ((0 : ℚ), (0 : ℚ)) ∉ pm_a_dict ∧
    pm_a_dict = [(-1/2, -1/2), (-1/2, 0), (-1/2, 1/2), (0, -1/2), (0, 1/2),
      (1/2, -1/2), (1/2, 0), (1/2, 1/2)] ∧
    (peg_a_dict s true).length = 26 ∧ ((0 : ℚ), (0 : ℚ), (0 : ℚ)) ∉ peg_a_dict s true ∧
    (peg_a_dict s false).length = 27 ∧ (peg_a_dict s false).count (0, 0, 0) = 1 ∧
    peg_a_dict s false = [(-s, -s, -s), (-s, -s, 0), (-s, -s, s), (-s, 0, -s), (-s, 0, 0),
      (-s, 0, s), (-s, s, -s), (-s, s, 0), (-s, s, s), (0, -s, -s), (0, -s, 0), (0, -s, s),
      (0, 0, -s), (0, 0, 0), (0, 0, s), (0, s, -s), (0, s, 0), (0, s, s), (s, -s, -s),
      (s, -s, 0), (s, -s, s), (s, 0, -s), (s, 0, 0), (s, 0, s), (s, s, -s), (s, s, 0),
      (s, s, s)] := by
  refine ⟨by with_unfolding_all rfl, ?_, ?_, peg_a_dict_true_length s hs, ?_, rfl, ?_, rfl⟩
  · norm_num [pm_a_dict, pm_actions, List.filterMap_cons, Prod.ext_iff, zero_eq_neg]
  · simp [pm_a_dict, pm_actions, List.filterMap_cons]
  · simp [peg_a_dict, pegActions, List.filterMap_cons, hs, Ne.symm hs, Prod.ext_iff,
      zero_eq_neg]
  · simp [peg_a_dict, pegActions, List.count_cons, hs, Prod.mk.injEq]

/-- Witness for C4 at the registered configuration `act_scale = 1`. -/
theorem action_tables_spec_witness :
    ((1 : ℚ) ≠ 0) ∧ (peg_a_dict 1 true).length = 26 :=
  ⟨by norm_num, (action_tables_spec 1 (by norm_num)).2.2.2.1⟩

/-- C9: the `dist` and `success` info fields of a point-mass step are
computed from the pre-simulation body-com delta while `reward` and `done`
come from the post-simulation observation, so there are steps with
`success = 0` yet `done = true`, and steps with `success = 1` yet
`done = false`. -/
theorem pm_info_pre_sim_mismatch :
    (∃ delta ob goal : ℝ × ℝ,
      (pm_step delta ob goal).success = 0 ∧ (pm_step delta ob goal).done = true) ∧
    (∃ delta ob goal : ℝ × ℝ,
      (pm_step delta ob goal).success = 1 ∧ (pm_step delta ob goal).done = false) := by
  constructor
  · refine ⟨(1, 0), (0, 0), (0, 0), ?_, ?_⟩ <;>
      norm_num [pm_step, get_reward, norm2, Real.sqrt_one, Real.sqrt_zero]
  · refine ⟨(0, 0), (1, 0), (0, 0), ?_, ?_⟩ <;>
      norm_num [pm_step, get_reward, norm2, Real.sqrt_one, Real.sqrt_zero]

/-! ## Peg helper lemmas -/

/-- Unfolding lemma for `find_good_goal` on a cons cell. -/
theorem find_good_goal_cons (g : ℝ) (l : List ℝ) :
    find_good_goal (g :: l) = if good_goal g then some g else find_good_goal l := rfl

/-- Unfolding lemma for `find_good_state` on a cons cell. -/
theorem find_good_state_cons (st : ℝ × ℝ × ℝ) (l : List (ℝ × ℝ × ℝ)) :
    find_good_state (st :: l) = if good_state st then some st else find_good_state l := rfl

/-- Any value returned by the `good_goal` scan satisfies `good_goal`. -/
theorem find_good_goal_spec : ∀ (l : List ℝ) (v : ℝ),
    find_good_goal l = some v → good_goal v
  | [], v, h => by simp [find_good_goal] at h
  | g :: rest, v, h => by
    rw [find_good_goal_cons] at h
    split_ifs at h with hg
    · cases h
      exact hg
    · exact find_good_goal_spec rest v h

/-- Any value returned by the `good_state` scan satisfies `good_state` and
comes from the scanned list. -/
theorem find_good_state_spec : ∀ (l : List (ℝ × ℝ × ℝ)) (r : ℝ × ℝ × ℝ),
    find_good_state l = some r → good_state r ∧ r ∈ l
  | [], r, h => by simp [find_good_state] at h
  | st :: rest, r, h => by
    rw [find_good_state_cons] at h
    split_ifs at h with hg
    · cases h
      exact ⟨hg, List.mem_cons_self _ _⟩
    · obtain ⟨h1, h2⟩ := find_good_state_spec rest r h
      exact ⟨h1, List.mem_cons_of_mem _ h2⟩

/-- The branch structure of the reach-counter update collapses to:
increment on a zero reward, reset on a nonzero reward, then terminate
(resetting the counter) when `done_on_goal` is set and the counter
exceeds 1. -/
theorem reach_update_eq (dog : Bool) (c : ℕ) (r : ℝ) :
    reach_update dog c r =
      if dog = true ∧ 1 < (if r = 0 then c + 1 else 0) then (0, true)
      else ((if r = 0 then c + 1 else 0), false) := by
  unfold reach_update
  by_cases hr : r = 0 <;> by_cases hc : c = 0 <;> simp [hr, hc]

/-- A reach-counter run over one more step. -/
theorem reach_run_append (dog : Bool) (rs : List ℝ) (r : ℝ) :
    reach_run dog (rs ++ [r]) = reach_update dog (reach_run dog rs).1 r := by
  unfold reach_run
  rw [List.foldl_append]
  rfl

/-- Without `done_on_goal`, the counter after a run equals the number of
consecutive trailing zero rewards, and done is never signalled. -/
theorem reach_run_false_eq (rs : List ℝ) :
    reach_run false rs = (trailing_zero_count rs, false) := by
  induction rs using List.reverseRecOn with
  | nil => rfl
  | append_singleton rs r ih =>
    rw [reach_run_append, ih, reach_update_eq]
    have htz : trailing_zero_count (rs ++ [r]) =
        if r = 0 then trailing_zero_count rs + 1 else 0 := by
      unfold trailing_zero_count
      rw [List.reverse_append]
      by_cases hr : r = 0 <;> simp [hr, List.takeWhile_cons]
    rw [htz]
    by_cases hr : r = 0 <;> simp [hr]

/-! ## Peg claim theorems -/

/-- C5 counterexample: in the discrete configuration with the default table
(`act_scale = 1`, `id_less = False`), index 13 maps to the all-zero tuple,
yet with the goal 0.02 the step returns reward `-0.02` and not
`-‖(0,0,0)‖ = 0`: the goal scalar is included in the norm. -/
theorem peg_reward_goal_polluted :
    list_index (peg_a_dict 1 false) 13 = Except.ok (0, 0, 0) ∧
    peg_reward_discrete (peg_a_dict 1 false) 13 (1/50) = Except.ok (-(1/50)) ∧
    peg_reward_cont [((0 : ℚ) : ℝ), ((0 : ℚ) : ℝ), ((0 : ℚ) : ℝ)] = 0 ∧
    (-(1/50) : ℝ) ≠ 0 := by
  have h13 : list_index (peg_a_dict 1 false) 13 = Except.ok (0, 0, 0) := by
    with_unfolding_all rfl
  have hn : np_norm [((0 : ℚ) : ℝ), ((0 : ℚ) : ℝ), ((0 : ℚ) : ℝ), (1/50 : ℝ)] = 1/50 := by
    unfold np_norm
    rw [show ((([((0 : ℚ) : ℝ), ((0 : ℚ) : ℝ), ((0 : ℚ) : ℝ), (1/50 : ℝ)]).map
        fun x => x ^ 2).sum) = (1/50 : ℝ) * (1/50 : ℝ) by norm_num]
    rw [Real.sqrt_mul_self (by norm_num)]
  refine ⟨h13, ?_, ?_, by norm_num⟩
  · unfold peg_reward_discrete
    rw [h13]
    show Except.ok (-(np_norm [((0 : ℚ) : ℝ), ((0 : ℚ) : ℝ), ((0 : ℚ) : ℝ), (1/50 : ℝ)])) = _
    rw [hn]
  · unfold peg_reward_cont np_norm
    rw [show ((([((0 : ℚ) : ℝ), ((0 : ℚ) : ℝ), ((0 : ℚ) : ℝ)]).map
        fun x => x ^ 2).sum) = (0 : ℝ) by norm_num]
    rw [Real.sqrt_zero, neg_zero]

/-- C5 (amended): the continuous-configuration reward is `-‖a‖₂` of the raw
action; in the discrete configuration the reward is the negated norm of the
looked-up tuple WITH the current goal scalar appended, and that reward is
`0` exactly when both the tuple is all-zero and the goal is `0`. -/
theorem peg_reward_spec (a : List ℝ) (tbl : List (ℚ × ℚ × ℚ)) (i : ℤ)
    (t : ℚ × ℚ × ℚ) (goal : ℝ) (h : list_index tbl i = Except.ok t) :
    peg_reward_cont a = -(np_norm a) ∧
    peg_reward_discrete tbl i goal =
      Except.ok (-(np_norm [(t.1 : ℝ), (t.2.1 : ℝ), (t.2.2 : ℝ), goal])) ∧
    (-(np_norm [(t.1 : ℝ), (t.2.1 : ℝ), (t.2.2 : ℝ), goal]) = 0 ↔
      t = ((0 : ℚ), (0 : ℚ), (0 : ℚ)) ∧ goal = 0) := by
  refine ⟨rfl, ?_, ?_⟩
  · unfold peg_reward_discrete
    rw [h]
    rfl
  · unfold np_norm
    rw [show ((([(t.1 : ℝ), (t.2.1 : ℝ), (t.2.2 : ℝ), goal]).map fun x => x ^ 2).sum) =
        (t.1 : ℝ) ^ 2 + (t.2.1 : ℝ) ^ 2 + (t.2.2 : ℝ) ^ 2 + goal ^ 2 by simp; ring]
    rw [neg_eq_zero, Real.sqrt_eq_zero']
    constructor
    · intro hle
      have h0 : (t.1 : ℝ) ^ 2 + (t.2.1 : ℝ) ^ 2 + (t.2.2 : ℝ) ^ 2 + goal ^ 2 = 0 :=
        le_antisymm hle (by positivity)
      have h1 : (t.1 : ℝ) = 0 := by
        have hsq : (t.1 : ℝ) ^ 2 = 0 := by
          nlinarith [sq_nonneg ((t.2.1 : ℝ)), sq_nonneg ((t.2.2 : ℝ)), sq_nonneg goal]
        exact pow_eq_zero_iff (two_ne_zero) |>.mp hsq
      have h2 : (t.2.1 : ℝ) = 0 := by
        have hsq : (t.2.1 : ℝ) ^ 2 = 0 := by
          nlinarith [sq_nonneg ((t.1 : ℝ)), sq_nonneg ((t.2.2 : ℝ)), sq_nonneg goal]
        exact pow_eq_zero_iff (two_ne_zero) |>.mp hsq
      have h3 : (t.2.2 : ℝ) = 0 := by
        have hsq : (t.2.2 : ℝ) ^ 2 = 0 := by
          nlinarith [sq_nonneg ((t.1 : ℝ)), sq_nonneg ((t.2.1 : ℝ)), sq_nonneg goal]
        exact pow_eq_zero_iff (two_ne_zero) |>.mp hsq
      have h4 : goal = 0 := by
        have hsq : goal ^ 2 = 0 := by
          nlinarith [sq_nonneg ((t.1 : ℝ)), sq_nonneg ((t.2.1 : ℝ)), sq_nonneg ((t.2.2 : ℝ))]
        exact pow_eq_zero_iff (two_ne_zero) |>.mp hsq
      have e1 : t.1 = 0 := by exact_mod_cast h1
      have e2 : t.2.1 = 0 := by exact_mod_cast h2
      have e3 : t.2.2 = 0 := by exact_mod_cast h3
      refine ⟨?_, h4⟩
      rw [Prod.ext_iff, Prod.ext_iff]
      exact ⟨e1, e2, e3⟩
    · rintro ⟨ht, rfl⟩
      rw [ht]
      norm_num

/-- Witness for C5's amended theorem at the default discrete table, the
zero tuple at index 13 and goal 0. -/
theorem peg_reward_spec_witness :
    list_index (peg_a_dict 1 false) 13 = Except.ok (0, 0, 0) ∧
    peg_reward_discrete (peg_a_dict 1 false) 13 0 =
      Except.ok (-(np_norm [(((0, 0, 0) : ℚ × ℚ × ℚ).1 : ℝ),
        (((0, 0, 0) : ℚ × ℚ × ℚ).2.1 : ℝ), (((0, 0, 0) : ℚ × ℚ × ℚ).2.2 : ℝ), (0 : ℝ)])) := by
  have h : list_index (peg_a_dict 1 false) 13 = Except.ok (0, 0, 0) := by
    with_unfolding_all rfl
  exact ⟨h, (peg_reward_spec [] (peg_a_dict 1 false) 13 (0, 0, 0) 0 h).2.1⟩

/-- C6: the reach counter increments on each zero-reward step and resets to
0 on any nonzero-reward step; the step returns done exactly when
`done_on_goal` is set and the updated counter exceeds 1, in which case the
counter also resets to 0; without `done_on_goal` the counter after any
reward sequence since reset equals the number of consecutive
immediately-preceding zero-reward steps. -/
theorem peg_reach_counter_spec (dog : Bool) (c : ℕ) (r : ℝ) (rs : List ℝ) :
    (reach_update dog c r =
      if dog = true ∧ 1 < (if r = 0 then c + 1 else 0) then (0, true)
      else ((if r = 0 then c + 1 else 0), false)) ∧
    ((reach_update dog c r).2 = true ↔ dog = true ∧ 1 < (if r = 0 then c + 1 else 0)) ∧
    (reach_run false rs).1 = trailing_zero_count rs := by
  refine ⟨reach_update_eq dog c r, ?_, by rw [reach_run_false_eq]⟩
  rw [reach_update_eq]
  by_cases h : dog = true ∧ 1 < (if r = 0 then c + 1 else 0) <;> simp [h]

/-- C7: every value returned by the peg goal sampler, over any stream of
candidate batches, satisfies the `good_goal` bounds `-0.26 < v < 0.26`. -/
theorem peg_goal_in_range (batches : List (List ℝ)) (v : ℝ)
    (h : get_goal batches = some v) : -0.26 < v ∧ v < 0.26 := by
  unfold get_goal at h
  have hg := find_good_goal_spec batches.flatten v h
  exact ⟨hg.2, hg.1⟩

/-- Witness for C7 on the single-candidate stream `[[0]]`. -/
theorem peg_goal_in_range_witness :
    get_goal [[0]] = some 0 ∧ (-0.26 < (0 : ℝ) ∧ (0 : ℝ) < 0.26) := by
  have h : get_goal [[0]] = some 0 := by
    unfold get_goal
    rw [show ([[(0 : ℝ)]]).flatten = [(0 : ℝ)] by simp]
    rw [find_good_goal_cons, if_pos (by constructor <;> norm_num)]
  exact ⟨h, peg_goal_in_range [[0]] 0 h⟩

/-- C8: every state returned by the peg initial-state sampler is one of the
constructed candidates (first joint the raw `Uniform(-1.5, 1.5)` draw,
second `-s0 - sign(s0)·spread`, third `sign(s0)·spread + extra`) and its
first joint lies strictly between `-π/2` and `π/2`. -/
theorem peg_state_spec (batches : List (List (ℝ × ℝ × ℝ))) (r : ℝ × ℝ × ℝ)
    (h : get_state batches = some r) :
    (-(Real.pi / 2) < r.1 ∧ r.1 < Real.pi / 2) ∧
    ∃ d ∈ batches.flatten, r = peg_candidate d.1 d.2.1 d.2.2 := by
  unfold get_state at h
  obtain ⟨hg, hmem⟩ := find_good_state_spec _ r h
  refine ⟨⟨hg.2, hg.1⟩, ?_⟩
  obtain ⟨d, hd, hfd⟩ := List.mem_map.mp hmem
  exact ⟨d, hd, hfd.symm⟩

/-- Witness for C8 on the single-draw stream `[[(0, 0, 0)]]`. -/
theorem peg_state_spec_witness :
    get_state [[((0 : ℝ), (0 : ℝ), (0 : ℝ))]] = some (0, 0, 0) ∧
      (-(Real.pi / 2) < ((0 : ℝ), (0 : ℝ), (0 : ℝ)).1 ∧
        ((0 : ℝ), (0 : ℝ), (0 : ℝ)).1 < Real.pi / 2) := by
  have hc : peg_candidate 0 0 0 = ((0 : ℝ), (0 : ℝ), (0 : ℝ)) := by
    unfold peg_candidate np_sign
    norm_num
  have hgs : good_state ((0 : ℝ), (0 : ℝ), (0 : ℝ)) := by
    constructor
    · show (0 : ℝ) < Real.pi / 2
      positivity
    · show -(Real.pi / 2) < (0 : ℝ)
      have := Real.pi_pos
      linarith
  have h : get_state [[((0 : ℝ), (0 : ℝ), (0 : ℝ))]] = some (0, 0, 0) := by
    unfold get_state
    rw [show ([[((0 : ℝ), (0 : ℝ), (0 : ℝ))]]).flatten.map
        (fun d => peg_candidate d.1 d.2.1 d.2.2) = [peg_candidate 0 0 0] by simp]
    rw [hc, find_good_state_cons, if_pos hgs]
  exact ⟨h, (peg_state_spec [[((0 : ℝ), (0 : ℝ), (0 : ℝ))]] (0, 0, 0) h).1⟩

/-- C10: since the first-joint draw range `[-1.5, 1.5)` lies inside
`(-π/2, π/2)`, the `good_state` filter accepts every candidate, so the
rejection loop returns the very first candidate of the first batch. -/
theorem peg_state_never_rejects (d : ℝ × ℝ × ℝ) (rest : List (ℝ × ℝ × ℝ))
    (more : List (List (ℝ × ℝ × ℝ))) (h0 : -1.5 ≤ d.1) (h1 : d.1 < 1.5) :
    get_state ((d :: rest) :: more) = some (peg_candidate d.1 d.2.1 d.2.2) := by
  have hpi := Real.pi_gt_three
  have hgs : good_state (peg_candidate d.1 d.2.1 d.2.2) := by
    constructor
    · show d.1 < Real.pi / 2
      linarith
    · show -(Real.pi / 2) < d.1
      linarith
  unfold get_state
  rw [show ((d :: rest) :: more).flatten.map (fun d => peg_candidate d.1 d.2.1 d.2.2) =
      peg_candidate d.1 d.2.1 d.2.2 ::
        ((rest ++ more.flatten).map fun d => peg_candidate d.1 d.2.1 d.2.2) by simp]
  rw [find_good_state_cons, if_pos hgs]

/-- Witness for C10 with the first draw `(0, 0, 0)`. -/
theorem peg_state_never_rejects_witness :
    (-1.5 ≤ ((0 : ℝ), (0 : ℝ), (0 : ℝ)).1) ∧ (((0 : ℝ), (0 : ℝ), (0 : ℝ)).1 < 1.5) ∧
      get_state [[((0 : ℝ), (0 : ℝ), (0 : ℝ))]] =
        some (peg_candidate ((0 : ℝ), (0 : ℝ), (0 : ℝ)).1 ((0 : ℝ), (0 : ℝ), (0 : ℝ)).2.1
          ((0 : ℝ), (0 : ℝ), (0 : ℝ)).2.2) :=
  ⟨by norm_num, by norm_num,
    peg_state_never_rejects ((0 : ℝ), (0 : ℝ), (0 : ℝ)) [] [] (by norm_num) (by norm_num)⟩
